import Mathlib

/-!
Shallow embedding of the latex-equation-extractor application
(src/App.tsx and the bundled geminiService module) together with proofs
about its input-acquisition and conversion-orchestration behaviour.

The application state is the tuple of React state hooks declared in
App.tsx lines 12-16.  Event handlers become pure state transformers;
the asynchronous file read and the remote inference call are modelled
by passing their outcomes (ReadResult, RemoteResult) as explicit
parameters.  JavaScript string primitives (trim, split, startsWith,
includes) are modelled by structurally recursive functions on the
character list so that every definition evaluates inside the kernel.
-/

namespace EquationExtractor

/-- JavaScript String.prototype.startsWith, modelled on character lists. -/
def jsStartsWith (s pre : String) : Bool :=
  List.isPrefixOf pre.toList s.toList

/-- JavaScript String.prototype.trim: drop whitespace from both ends. -/
def jsTrim (s : String) : String :=
  String.mk (((s.toList.dropWhile Char.isWhitespace).reverse.dropWhile Char.isWhitespace).reverse)

/-- Split a character list at every occurrence of the separator character. -/
def splitChar (sep : Char) : List Char → List (List Char)
  | [] => [[]]
  | c :: cs =>
    match splitChar sep cs with
    | [] => [[c]]
    | r :: rs => if c == sep then [] :: r :: rs else (c :: r) :: rs

/-- JavaScript String.prototype.split with a one-character separator. -/
def jsSplit (sep : Char) (s : String) : List String :=
  (splitChar sep s.toList).map String.mk

/-- Containment of a character sequence inside another one. -/
def containsSeq (sub : List Char) : List Char → Bool
  | [] => sub.isEmpty
  | c :: cs => List.isPrefixOf sub (c :: cs) || containsSeq sub cs

/-- JavaScript String.prototype.includes for a non-empty search string. -/
def stringIncludes (s sub : String) : Bool :=
  containsSeq sub.toList s.toList

/-- A file-like object: a name, a declared media type (File.type in the
DOM) and opaque byte content. -/
structure File where
  name : String
  type : String
  content : String
deriving DecidableEq, Repr

/-- URL.createObjectURL, modelled as an injective tagging of the file.
The application only stores and later revokes this handle; nothing
inspects its text. -/
def createObjectURL (f : File) : String :=
  "blob:" ++ f.name

/-- The ImageFile record of App.tsx lines 6-9: the selected file together
with its preview display handle. -/
structure ImageFile where
  file : File
  preview : String
deriving DecidableEq, Repr

/-- The React state hooks of App.tsx lines 12-16. -/
structure AppState where
  imageFile : Option ImageFile
  latexCode : String
  isLoading : Bool
  error : String
  isDragging : Bool
deriving DecidableEq, Repr

/-- The initial state produced by the useState initialisers. -/
def initialState : AppState :=
  { imageFile := none, latexCode := "", isLoading := false, error := "", isDragging := false }

/-- Error message set by processFile for a non-image or missing input. -/
def invalidImageMessage : String := "Please select or paste a valid image file."

/-- Error message set by handleGenerateClick when no image is selected. -/
def noImageMessage : String := "Please upload an image first."

/-- Error message set by the FileReader onerror handler. -/
def readErrorMessage : String := "Failed to read the image file."

/-- Message of the error thrown inside getLatexFromImage when the trimmed
response text is empty (geminiService line 252). -/
def emptyResponseMessage : String :=
  "Gemini returned an empty response. The equation might not be clear in the image."

/-- Message thrown by getLatexFromImage when the caught error mentions an
invalid API key (geminiService line 261). -/
def invalidKeyMessage : String := "Invalid API Key. Please check your configuration."

/-- Catch-all message thrown by getLatexFromImage (geminiService line 263). -/
def genericFailureMessage : String :=
  "Failed to generate LaTeX from the image. Please try again with a clearer image."

/-- The instruction string the code places in the text part of every
request (geminiService line 242), transcribed verbatim. -/
def promptText : String :=
  "Extract the LaTeX code for the equation in this image. Only return the raw LaTeX code itself, without any surrounding text, explanations, or markdown formatting like ```latex ... ```."

/-- The instruction string as quoted by the specification (section 4.2,
Step 2).  Stated separately, following the spec text rather than the
source, so that the two can be compared. -/
def specPromptText : String :=
  "Extract the LaTeX code for the equation in this image. Only return the raw LaTeX code itself, without any surrounding text, explanations, or markdown formatting."

/-- processFile (App.tsx lines 20-31).  A present file whose declared
media type begins with image/ replaces the selected image and clears the
result and error strings; anything else only sets the error message. -/
def processFile (file : Option File) (s : AppState) : AppState :=
  match file with
  | some f =>
    if jsStartsWith f.type "image/" then
      { s with imageFile := some { file := f, preview := createObjectURL f },
               latexCode := "", error := "" }
    else
      { s with error := invalidImageMessage }
  | none => { s with error := invalidImageMessage }

/-- Outcome of the remote generateContent call: either a response whose
text field is returned, or a thrown error carrying a message. -/
inductive RemoteResult where
  | ok (text : String)
  | err (message : String)
deriving DecidableEq, Repr

/-- getLatexFromImage (geminiService lines 232-265) as a function of the
remote outcome.  The body is one try/catch: the attempt either returns
the trimmed text or throws (the empty-response error thrown at line 252
is itself raised inside the try block, so it lands in the same catch at
line 257, where it is replaced like every other error). -/
def getLatexFromImage (response : RemoteResult) : Except String String :=
  let attempt : Except String String :=
    match response with
    | RemoteResult.ok text =>
      let latex := jsTrim text
      if latex == "" then Except.error emptyResponseMessage else Except.ok latex
    | RemoteResult.err msg => Except.error msg
  match attempt with
  | Except.ok latex => Except.ok latex
  | Except.error msg =>
    if stringIncludes msg "API key not valid" then Except.error invalidKeyMessage
    else Except.error genericFailureMessage

/-- The request assembled by getLatexFromImage: the encoded payload, the
media type, and the fixed instruction text (geminiService lines 234-247). -/
structure ConversionRequest where
  data : String
  mimeType : String
  prompt : String
deriving DecidableEq, Repr

/-- Build the request dispatched to ai.models.generateContent. -/
def buildRequest (base64 : String) (mime : String) : ConversionRequest :=
  { data := base64, mimeType := mime, prompt := promptText }

/-- Outcome of reader.readAsDataURL: either a data URL delivered to
onloadend, or a read failure delivered to onerror. -/
inductive ReadResult where
  | ok (dataUrl : String)
  | err
deriving DecidableEq, Repr

/-- The base64 payload extracted in the onloadend handler:
(reader.result as string).split(',')[1] (App.tsx line 109). -/
def dataUrlPayload (dataUrl : String) : String :=
  (jsSplit ',' dataUrl).getD 1 ""

/-- Result of one handleGenerateClick invocation: the final state, the
request dispatched to the remote capability (none when it was never
contacted), and whether a rejection escaped unhandled. -/
structure GenerateOutcome where
  state : AppState
  request : Option ConversionRequest
  unhandledRejection : Bool
deriving DecidableEq, Repr

/-- handleGenerateClick (App.tsx lines 95-123) as a function of the read
and remote outcomes.  Control flow follows the source: without an image
it only sets the error; otherwise it sets the loading flag and clears
error and result, then the FileReader callbacks run after the
synchronous try block has already exited.  onerror sets the read-error
message.  onloadend is an async callback: when getLatexFromImage
rejects, the rejection is not observed by the try/catch of lines
105-122 (that catch only guards the synchronous setup), so no state is
updated and the rejection escapes as an unhandled promise rejection. -/
def handleGenerateClick (readRes : ReadResult) (remote : RemoteResult) (s : AppState) :
    GenerateOutcome :=
  match s.imageFile with
  | none => ⟨{ s with error := noImageMessage }, none, false⟩
  | some img =>
    let s1 := { s with isLoading := true, error := "", latexCode := "" }
    match readRes with
    | ReadResult.err => ⟨{ s1 with error := readErrorMessage, isLoading := false }, none, false⟩
    | ReadResult.ok dataUrl =>
      let req := buildRequest (dataUrlPayload dataUrl) img.file.type
      match getLatexFromImage remote with
      | Except.ok result => ⟨{ s1 with latexCode := result, isLoading := false }, some req, false⟩
      | Except.error _ => ⟨s1, some req, true⟩

/-- clearImage (App.tsx lines 125-129). -/
def clearImage (s : AppState) : AppState :=
  { s with imageFile := none, latexCode := "", error := "" }

/-- A DataTransferItem: its kind, its declared type, and the value of
getAsFile() (null for non-file items). -/
structure ClipboardItem where
  kind : String
  type : String
  file : Option File
deriving DecidableEq, Repr

/-- The test applied to each clipboard item in the paste handler
(App.tsx line 44). -/
def isImageItem (it : ClipboardItem) : Bool :=
  it.kind == "file" && jsStartsWith it.type "image/"

/-- The loop of App.tsx lines 43-50: the first item of kind file whose
type starts with image/. -/
def firstImageItem (items : List ClipboardItem) : Option ClipboardItem :=
  items.find? isImageItem

/-- handlePaste (App.tsx lines 34-51).  Returns the new state and
whether preventDefault was called (the event was intercepted). -/
def handlePaste (targetEditable : Bool) (items : Option (List ClipboardItem)) (s : AppState) :
    AppState × Bool :=
  if targetEditable then (s, false)
  else
    match items with
    | none => (s, false)
    | some its =>
      match firstImageItem its with
      | some it => (processFile it.file s, true)
      | none => (s, false)

/-- handleFileChange (App.tsx lines 67-69): files?.[0] ?? null. -/
def handleFileChange (files : Option (List File)) (s : AppState) : AppState :=
  processFile (files.bind List.head?) s

/-- handleDrop (App.tsx lines 86-93): always resets the drag flag, and
forwards to handleFileChange only when the dropped set is non-empty. -/
def handleDrop (files : Option (List File)) (s : AppState) : AppState :=
  let s1 := { s with isDragging := false }
  match files with
  | some fs => if fs.length > 0 then handleFileChange (some fs) s1 else s1
  | none => s1

/-- handleDragEnter (App.tsx lines 76-79). -/
def handleDragEnter (s : AppState) : AppState :=
  { s with isDragging := true }

/-- handleDragLeave (App.tsx lines 81-84). -/
def handleDragLeave (s : AppState) : AppState :=
  { s with isDragging := false }

/-- DOM guarantee on DataTransferItem: for an item of kind file,
getAsFile() returns the file, whose declared type is the item's type. -/
def itemWellFormed (it : ClipboardItem) : Prop :=
  it.kind = "file" → ∃ f, it.file = some f ∧ f.type = it.type

/-- States reachable through the event handlers.  The guards mirror the
rendering logic of App.tsx lines 144-193: the drop zone and the file
input exist only while no image is selected, and the generate button
exists only with an image and is disabled while loading.  The paste
listener is installed on window and fires in every state. -/
inductive Reachable : AppState → Prop where
  | init : Reachable initialState
  | pick (files : Option (List File)) (s : AppState) :
      Reachable s → s.imageFile = none → Reachable (handleFileChange files s)
  | drop (files : Option (List File)) (s : AppState) :
      Reachable s → s.imageFile = none → Reachable (handleDrop files s)
  | dragEnter (s : AppState) : Reachable s → Reachable (handleDragEnter s)
  | dragLeave (s : AppState) : Reachable s → Reachable (handleDragLeave s)
  | paste (ed : Bool) (items : Option (List ClipboardItem)) (s : AppState) :
      Reachable s → (∀ its, items = some its → ∀ it, it ∈ its → itemWellFormed it) →
      Reachable (handlePaste ed items s).1
  | generate (rr : ReadResult) (rem : RemoteResult) (s : AppState) :
      Reachable s → s.imageFile ≠ none → s.isLoading = false →
      Reachable (handleGenerateClick rr rem s).state
  | clear (s : AppState) : Reachable s → Reachable (clearImage s)

/-- Mutual-exclusion invariant together with the auxiliary fact that
makes it inductive: with no image selected the result text is empty. -/
def stateInv (s : AppState) : Prop :=
  (s.error = "" ∨ s.latexCode = "") ∧ (s.imageFile = none → s.latexCode = "")

/-- Sample image file used for concrete evaluations. -/
def sampleImageFile : File :=
  { name := "equation.png", type := "image/png", content := "pngbytes" }

/-- Sample non-image file used for concrete evaluations. -/
def sampleTextFile : File :=
  { name := "notes.txt", type := "text/plain", content := "hello" }

/-- A state with an image selected and no outcome yet. -/
def readyState : AppState :=
  { imageFile := some { file := sampleImageFile, preview := createObjectURL sampleImageFile },
    latexCode := "", isLoading := false, error := "", isDragging := false }

/-- A state with an image selected and a successful result displayed. -/
def resolvedState : AppState :=
  { imageFile := some { file := sampleImageFile, preview := createObjectURL sampleImageFile },
    latexCode := "x^2", isLoading := false, error := "", isDragging := false }

/-- A clipboard item carrying the sample image file. -/
def sampleImageItem : ClipboardItem :=
  { kind := "file", type := "image/png", file := some sampleImageFile }

/-- A clipboard item for plain pasted text. -/
def sampleTextItem : ClipboardItem :=
  { kind := "string", type := "text/plain", file := none }

/-- processFile preserves the invariant whenever the current result text
is empty: the accepting branch clears both strings, and the rejecting
branch keeps the (empty) result while setting the error. -/
lemma stateInv_processFile (f : Option File) (s : AppState) (h0 : s.latexCode = "") :
    stateInv (processFile f s) := by
  cases f with
  | none => exact ⟨Or.inr h0, fun _ => h0⟩
  | some g =>
    by_cases hg : jsStartsWith g.type "image/" = true
    · simp only [processFile, hg, if_true]
      exact ⟨Or.inl rfl, fun _ => rfl⟩
    · simp only [processFile, hg, if_false]
      exact ⟨Or.inr h0, fun _ => h0⟩

/-- processFile applied to a genuine image yields a state satisfying the
invariant outright. -/
lemma stateInv_processFile_image (g : File) (s : AppState)
    (h : jsStartsWith g.type "image/" = true) : stateInv (processFile (some g) s) := by
  simp only [processFile, h, if_true]
  exact ⟨Or.inl rfl, fun _ => rfl⟩

/-- The file-picker channel preserves the invariant in the states where
its input element is rendered (no image selected). -/
lemma stateInv_handleFileChange (files : Option (List File)) (s : AppState)
    (h : stateInv s) (h0 : s.imageFile = none) : stateInv (handleFileChange files s) :=
  stateInv_processFile _ _ (h.2 h0)

/-- The drop channel preserves the invariant in the states where the
drop zone is rendered (no image selected). -/
lemma stateInv_handleDrop (files : Option (List File)) (s : AppState)
    (h : stateInv s) (h0 : s.imageFile = none) : stateInv (handleDrop files s) := by
  cases files with
  | none => exact h
  | some fs =>
    simp only [handleDrop]
    split
    · exact stateInv_handleFileChange _ _ h h0
    · exact h

/-- The paste channel preserves the invariant in every state: it only
ever submits a file of image type (by the DOM well-formedness of
clipboard items), and otherwise leaves the state untouched. -/
lemma stateInv_handlePaste (ed : Bool) (items : Option (List ClipboardItem)) (s : AppState)
    (h : stateInv s)
    (hwf : ∀ its, items = some its → ∀ it, it ∈ its → itemWellFormed it) :
    stateInv (handlePaste ed items s).1 := by
  by_cases hed : ed = true
  · simp only [handlePaste, hed, if_true]
    exact h
  · simp only [handlePaste, hed, if_false]
    cases items with
    | none => exact h
    | some its =>
      cases hfind : firstImageItem its with
      | none => simp only [hfind]; exact h
      | some it =>
        simp only [hfind]
        have hmem : it ∈ its := List.mem_of_find?_eq_some hfind
        have hp : isImageItem it = true := List.find?_some hfind
        rw [isImageItem, Bool.and_eq_true] at hp
        obtain ⟨hk, himg⟩ := hp
        obtain ⟨f, hf, hft⟩ := hwf its rfl it hmem (eq_of_beq hk)
        rw [hf]
        exact stateInv_processFile_image f s (by rw [hft]; exact himg)

/-- One generate invocation preserves the invariant: every branch that
sets the error has already cleared the result, the success branch has
already cleared the error, and the unhandled-rejection branch leaves
both strings empty. -/
lemma stateInv_handleGenerateClick (rr : ReadResult) (rem : RemoteResult) (s : AppState)
    (h : stateInv s) : stateInv (handleGenerateClick rr rem s).state := by
  cases him : s.imageFile with
  | none =>
    simp only [handleGenerateClick, him]
    exact ⟨Or.inr (h.2 him), fun _ => h.2 him⟩
  | some img =>
    simp only [handleGenerateClick, him]
    cases rr with
    | err => exact ⟨Or.inr rfl, fun _ => rfl⟩
    | ok dataUrl =>
      cases hres : getLatexFromImage rem with
      | ok result =>
        simp only [hres]
        exact ⟨Or.inl rfl, fun hn => Option.noConfusion hn⟩
      | error msg =>
        simp only [hres]
        exact ⟨Or.inl rfl, fun hn => Option.noConfusion hn⟩

/-- Every reachable state satisfies the mutual-exclusion invariant. -/
lemma reachable_stateInv (s : AppState) (h : Reachable s) : stateInv s := by
  induction h with
  | init => exact ⟨Or.inl rfl, fun _ => rfl⟩
  | pick files t hr h0 ih => exact stateInv_handleFileChange files t ih h0
  | drop files t hr h0 ih => exact stateInv_handleDrop files t ih h0
  | dragEnter t hr ih => exact ih
  | dragLeave t hr ih => exact ih
  | paste ed items t hr hwf ih => exact stateInv_handlePaste ed items t ih hwf
  | generate rr rem t hr h1 h2 ih => exact stateInv_handleGenerateClick rr rem t ih
  | clear t hr ih => exact ⟨Or.inl rfl, fun _ => rfl⟩

/-- C1: the claim says a conversion whose remote call succeeds with text
that is empty after trimming yields the failure message about an empty
Gemini response.  In the code that error is thrown inside
getLatexFromImage's own try block, so its catch-all replaces it: the
conversion actually yields the generic failure message, which differs
from the claimed one. -/
theorem claim1_empty_response_message_masked :
    getLatexFromImage (RemoteResult.ok "   ") = Except.error genericFailureMessage ∧
    genericFailureMessage ≠ emptyResponseMessage :=
  ⟨rfl, by decide⟩

/-- C2: the claim says every error of the read-encode-dispatch-reduce
pipeline is caught at the orchestration boundary, stored as a user-facing
error message, with the in-flight flag cleared.  Evaluating the code at a
conversion whose remote call rejects: the rejection happens inside the
async onloadend callback, outside the orchestrating try/catch, so it
escapes unhandled, the error state stays empty, and the in-flight flag
stays set. -/
theorem claim2_remote_error_escapes_unhandled :
    (handleGenerateClick (ReadResult.ok "data:image/png;base64,AAAA")
        (RemoteResult.err "network down") readyState).unhandledRejection = true ∧
    (handleGenerateClick (ReadResult.ok "data:image/png;base64,AAAA")
        (RemoteResult.err "network down") readyState).state.error = "" ∧
    (handleGenerateClick (ReadResult.ok "data:image/png;base64,AAAA")
        (RemoteResult.err "network down") readyState).state.isLoading = true :=
  ⟨rfl, rfl, rfl⟩

/-- C3: submitCandidate (processFile) installs exactly one SelectedImage
and clears the error and the prior outcome for every input whose declared
media type begins with image/; for a non-image or missing input it leaves
the selected image unchanged and sets the invalid-input message. -/
theorem claim3_submitCandidate_validation :
    ∀ (f : File) (s : AppState),
      (jsStartsWith f.type "image/" = true →
        processFile (some f) s =
          { s with imageFile := some { file := f, preview := createObjectURL f },
                   latexCode := "", error := "" }) ∧
      (jsStartsWith f.type "image/" = false →
        processFile (some f) s = { s with error := invalidImageMessage }) ∧
      processFile none s = { s with error := invalidImageMessage } := by
  intro f s
  refine ⟨fun h => ?_, fun h => ?_, rfl⟩
  · simp [processFile, h]
  · simp [processFile, h]

/-- Witness for C3 at a png file and a text file in the initial state. -/
theorem claim3_witness :
    processFile (some sampleImageFile) initialState =
      { initialState with
          imageFile := some { file := sampleImageFile,
                              preview := createObjectURL sampleImageFile },
          latexCode := "", error := "" } ∧
    processFile (some sampleTextFile) initialState =
      { initialState with error := invalidImageMessage } :=
  ⟨(claim3_submitCandidate_validation sampleImageFile initialState).1 rfl,
   (claim3_submitCandidate_validation sampleTextFile initialState).2.1 rfl⟩

/-- C4: invoking generate with no SelectedImage only sets the
no-image-selected error message, dispatches no request to the remote
capability, and leaves every other state component unchanged. -/
theorem claim4_generate_without_image :
    ∀ (rr : ReadResult) (rem : RemoteResult) (s : AppState), s.imageFile = none →
      handleGenerateClick rr rem s =
        { state := { s with error := noImageMessage },
          request := none, unhandledRejection := false } := by
  intro rr rem s h
  simp only [handleGenerateClick, h]

/-- Witness for C4 at the initial state. -/
theorem claim4_witness :
    handleGenerateClick ReadResult.err (RemoteResult.ok "x") initialState =
      { state := { initialState with error := noImageMessage },
        request := none, unhandledRejection := false } :=
  claim4_generate_without_image ReadResult.err (RemoteResult.ok "x") initialState rfl

set_option maxRecDepth 4096 in
/-- C5 counterexample: the claim asserts that whenever an operation sets
an error message the result text is replaced (cleared).  Applying
processFile to a non-image file in a state displaying a result sets the
error and leaves the result text in place, so both are non-empty. -/
theorem claim5_counterexample :
    (processFile (some sampleTextFile) resolvedState).error = invalidImageMessage ∧
    (processFile (some sampleTextFile) resolvedState).latexCode = "x^2" :=
  ⟨by decide, by decide⟩

/-- C5 (amended): in every reachable state at most one of the error
message and the result text is non-empty.  The invalid-input and
missing-image branches set the error without clearing the result, but
within the reachable states they only fire when the result is already
empty, so the exclusion holds. -/
theorem claim5_error_result_exclusion :
    ∀ s : AppState, Reachable s → s.error = "" ∨ s.latexCode = "" :=
  fun s h => (reachable_stateInv s h).1

/-- Witness for C5 at the initial state. -/
theorem claim5_witness : initialState.error = "" ∨ initialState.latexCode = "" :=
  claim5_error_result_exclusion initialState Reachable.init

set_option maxRecDepth 8192 in
/-- C6 counterexample: a request actually dispatched by a conversion
carries the code's instruction string, which is not the string quoted by
the claim — the code's string continues with an example of markdown
formatting after the word formatting. -/
theorem claim6_counterexample :
    (handleGenerateClick (ReadResult.ok "data:image/png;base64,AAAA")
        (RemoteResult.ok "E=mc^2") readyState).request =
      some (buildRequest "AAAA" "image/png") ∧
    (buildRequest "AAAA" "image/png").prompt ≠ specPromptText :=
  ⟨rfl, by decide⟩

/-- C6 (amended): every dispatched ConversionRequest carries exactly the
fixed instruction string of geminiService line 242, which ends with
"markdown formatting like ```latex ... ```." rather than the spec's
"markdown formatting.". -/
theorem claim6_request_prompt :
    ∀ (rr : ReadResult) (rem : RemoteResult) (s : AppState) (req : ConversionRequest),
      (handleGenerateClick rr rem s).request = some req →
      req.prompt = "Extract the LaTeX code for the equation in this image. Only return the raw LaTeX code itself, without any surrounding text, explanations, or markdown formatting like ```latex ... ```." := by
  intro rr rem s req h
  cases him : s.imageFile with
  | none => simp [handleGenerateClick, him] at h
  | some img =>
    cases rr with
    | err => simp [handleGenerateClick, him] at h
    | ok dataUrl =>
      cases hres : getLatexFromImage rem with
      | ok result =>
        simp only [handleGenerateClick, him, hres, Option.some.injEq] at h
        subst h
        rfl
      | error msg =>
        simp only [handleGenerateClick, him, hres, Option.some.injEq] at h
        subst h
        rfl

set_option maxRecDepth 8192 in
/-- Witness for C6 at a concrete dispatched request. -/
theorem claim6_witness :
    (buildRequest "AAAA" "image/png").prompt = "Extract the LaTeX code for the equation in this image. Only return the raw LaTeX code itself, without any surrounding text, explanations, or markdown formatting like ```latex ... ```." :=
  claim6_request_prompt (ReadResult.ok "data:image/png;base64,AAAA")
    (RemoteResult.ok "E=mc^2") readyState (buildRequest "AAAA" "image/png") rfl

/-- C7: a conversion yields exactly one outcome, and every successful
outcome equals the remote response with surrounding whitespace trimmed
and is never the empty string (a success can only arise from a remote
response whose trimmed text is non-empty). -/
theorem claim7_success_is_trimmed_nonempty :
    ∀ (r : RemoteResult) (latex : String),
      getLatexFromImage r = Except.ok latex →
      ∃ text, r = RemoteResult.ok text ∧ latex = jsTrim text ∧ latex ≠ "" := by
  intro r latex h
  cases r with
  | err msg =>
    simp only [getLatexFromImage] at h
    split at h <;> exact Except.noConfusion h
  | ok text =>
    by_cases ht : (jsTrim text == "") = true
    · simp only [getLatexFromImage, ht, if_true] at h
      split at h <;> exact Except.noConfusion h
    · have ht' : (jsTrim text == "") = false := by
        rw [Bool.not_eq_true] at ht
        exact ht
      have hgl : getLatexFromImage (RemoteResult.ok text) = Except.ok (jsTrim text) := by
        simp [getLatexFromImage, ht']
      rw [hgl] at h
      have heq : jsTrim text = latex := Except.ok.inj h
      refine ⟨text, rfl, heq.symm, ?_⟩
      rw [← heq]
      simpa using ht'

/-- Witness for C7 at the spec's scenario 4 response. -/
theorem claim7_witness :
    ∃ text, RemoteResult.ok " \\frac{1}{2} " = RemoteResult.ok text ∧
      "\\frac{1}{2}" = jsTrim text ∧ "\\frac{1}{2}" ≠ "" :=
  claim7_success_is_trimmed_nonempty (RemoteResult.ok " \\frac{1}{2} ") "\\frac{1}{2}" rfl

/-- C8: clearImage is idempotent and always produces the idle state with
no selected image, no result text and no error message. -/
theorem claim8_clear_idempotent :
    ∀ s : AppState,
      clearImage (clearImage s) = clearImage s ∧
      (clearImage s).imageFile = none ∧
      (clearImage s).latexCode = "" ∧
      (clearImage s).error = "" :=
  fun _ => ⟨rfl, rfl, rfl, rfl⟩

/-- C9: a paste event over an editable target is ignored entirely; with
no clipboard data it is a silent no-op; otherwise the first item of kind
file with an image type is submitted as the candidate (and the event is
intercepted), and if no item qualifies nothing happens and no error is
set. -/
theorem claim9_paste_filtering :
    ∀ (items : Option (List ClipboardItem)) (s : AppState),
      handlePaste true items s = (s, false) ∧
      handlePaste false none s = (s, false) ∧
      (∀ its, firstImageItem its = none → handlePaste false (some its) s = (s, false)) ∧
      (∀ its it, firstImageItem its = some it →
        handlePaste false (some its) s = (processFile it.file s, true)) := by
  intro items s
  refine ⟨rfl, rfl, fun its h => ?_, fun its it h => ?_⟩
  · simp [handlePaste, h]
  · simp [handlePaste, h]

/-- Witness for C9: an editable-target paste, a paste with only a text
item, and a paste whose second item is the first image item. -/
theorem claim9_witness :
    handlePaste true (some [sampleImageItem]) initialState = (initialState, false) ∧
    handlePaste false (some [sampleTextItem]) initialState = (initialState, false) ∧
    handlePaste false (some [sampleTextItem, sampleImageItem]) initialState =
      (processFile sampleImageItem.file initialState, true) :=
  ⟨(claim9_paste_filtering (some [sampleImageItem]) initialState).1,
   (claim9_paste_filtering (some [sampleTextItem]) initialState).2.2.1 [sampleTextItem] rfl,
   (claim9_paste_filtering (some [sampleTextItem, sampleImageItem]) initialState).2.2.2
     [sampleTextItem, sampleImageItem] sampleImageItem rfl⟩

/-- C10: a drop event with an empty dropped file set leaves the selected
image, the result text and the error message unchanged, while a
file-picker change event with no file selected goes through processFile
and sets the invalid-input message — the two channels treat a missing
file differently. -/
theorem claim10_empty_drop_vs_empty_picker :
    ∀ s : AppState,
      ((handleDrop (some []) s).imageFile = s.imageFile ∧
       (handleDrop (some []) s).latexCode = s.latexCode ∧
       (handleDrop (some []) s).error = s.error) ∧
      handleFileChange none s = { s with error := invalidImageMessage } ∧
      handleFileChange (some []) s = { s with error := invalidImageMessage } :=
  fun _ => ⟨⟨rfl, rfl, rfl⟩, rfl, rfl⟩

end EquationExtractor
